import Mathlib

/-!
Verification development for the prompt-extraction tool in
src/cursor_prompt_logger.py.

The Python source is shallowly embedded as follows.

JSON values decoded by json.loads are modelled by the inductive type JVal.
Decoded objects are association lists with distinct keys, in insertion
order (json.loads resolves duplicate keys before the code under study ever
sees the dictionary).  JSON numeric literals carrying a fractional part or
an exponent decode to Python floats; they are outside the model, which is
harmless here because every float takes exactly the branches a string
takes in the code under study: it is not a dict, has no strip method, and
fails the isinstance int test.

The result of json.loads itself is modelled as an Option JVal: none stands
for a json.JSONDecodeError, which is the only exception json.loads raises
on a string input and the only exception the except clause of
extract_prompts_from_value catches.  Any other exception raised inside the
try block, such as the AttributeError raised by calling strip on a value
that is not a string, escapes the function; fallible computations are
therefore embedded in the Except monad, with the error string naming the
Python exception type.

Filesystem paths are modelled as lists of path components, and the
filesystem and sqlite environment of find_cursor_dbs as a record of
oracle functions (FSModel).
-/

/-- Decoded JSON value, as produced by json.loads.  Booleans are kept as a
separate constructor, but note that Python bools are also ints
(isinstance True int holds and True equals 1), which pyIntVal models. -/
inductive JVal where
  | null : JVal
  | bool (b : Bool) : JVal
  | int (n : Int) : JVal
  | str (s : String) : JVal
  | arr (elems : List JVal) : JVal
  | obj (fields : List (String × JVal)) : JVal

/-- Dictionary read, d.get(k) in Python: the value stored under key k. -/
def jget (fields : List (String × JVal)) (key : String) : Option JVal :=
  List.lookup key fields

/-- Bool test for the string constructor of JVal. -/
def JVal.isStr : JVal → Bool
  | JVal.str _ => true
  | _ => false

/-- COMMAND_TYPES of the source, lines 13 to 24: the fixed mapping from
integer command type codes to labels. -/
def COMMAND_TYPES : List (Int × String) :=
  [(1, "chat"), (2, "completion"), (3, "insert"), (4, "edit"), (5, "delete"),
   (6, "format"), (7, "explain"), (8, "test"), (9, "fix"), (10, "optimize")]

/-- The Python view of a JSON value as an int, used by the test
isinstance(command_type, int) on line 145: Python ints come from JSON
integer literals, and Python bools are ints with True equal to 1 and
False equal to 0.  Everything else is not an int. -/
def pyIntVal : JVal → Option Int
  | JVal.int n => some n
  | JVal.bool b => some (if b then 1 else 0)
  | _ => none

/-- Lines 144 to 146 of the source, after the d.get step: if the command
type value is a Python int present as a key of COMMAND_TYPES, replace it
by the label; otherwise keep it as it is.  Key membership and lookup in a
Python dict use equality, under which True equals 1 and False equals 0. -/
def resolveCommandType (v : JVal) : JVal :=
  match pyIntVal v with
  | some n =>
    match List.lookup n COMMAND_TYPES with
    | some label => JVal.str label
    | none => v
  | none => v

/-- Whitespace characters removed by the Python str.strip method, ASCII
part.  Python additionally strips some Unicode space code points; none of
the statements below depend on the exact whitespace set, because the same
predicate is used both in the embedding of the code and in the element
classification it is compared against. -/
def pyWhitespace (c : Char) : Bool :=
  c = ' ' || c = '\t' || c = '\n' || c = '\r' || c = '\x0B' || c = '\x0C'

/-- Truthiness of s.strip() on line 143: the stripped string is non-empty
exactly when s has at least one non-whitespace character. -/
def strippedTruthy (s : String) : Bool :=
  s.data.any fun c => ! pyWhitespace c

/-- The dictionary appended on lines 151 to 156: one extracted prompt. -/
structure Record where
  content : String
  command_type : JVal
  timestamp : JVal
  raw_data : List (String × JVal)

/-- The body of the loop on lines 142 to 156, for one array element:
either an exception name, or the record the element contributes (none
when the element is filtered out).  An element that is a dict with a text
key whose value is not a string raises AttributeError on line 143, since
only strings have a strip method; this exception is not caught by the
except clause on line 159, which catches json.JSONDecodeError only.
The capture time datetime.datetime.now().isoformat() of line 149 is
passed in as the string argument now. -/
def extractRecord (now : String) (prompt : JVal) : Except String (Option Record) :=
  match prompt with
  | JVal.obj fields =>
    match jget fields "text" with
    | some (JVal.str s) =>
      if strippedTruthy s then
        Except.ok (some ⟨s,
          resolveCommandType ((jget fields "commandType").getD (JVal.str "unknown")),
          (jget fields "timestamp").getD (JVal.str now),
          fields⟩)
      else
        Except.ok none
    | some _ => Except.error "AttributeError"
    | none => Except.ok none
  | _ => Except.ok none

/-- The record an element contributes when no exception occurs. -/
def elemRecord (now : String) (p : JVal) : Option Record :=
  match extractRecord now p with
  | Except.ok r => r
  | Except.error _ => none

/-- The loop on lines 141 to 156, run over an already-reversed element
list: records are appended in traversal order, and an exception anywhere
aborts the whole call. -/
def extractList (now : String) : List JVal → Except String (List Record)
  | [] => Except.ok []
  | p :: rest =>
    match extractRecord now p with
    | Except.error e => Except.error e
    | Except.ok none => extractList now rest
    | Except.ok (some r) =>
      match extractList now rest with
      | Except.error e => Except.error e
      | Except.ok rs => Except.ok (r :: rs)

/-- extract_prompts_from_value, lines 133 to 160.  The first argument is
the result of json.loads on the stored value (none for a decode error,
which the except clause turns into the empty list).  A decoded value that
is not a list returns the empty list on line 138.  A decoded list is
processed in reverse order (line 141). -/
def extract_prompts_from_value (decoded : Option JVal) (now : String) :
    Except String (List Record) :=
  match decoded with
  | none => Except.ok []
  | some (JVal.arr prompts) => extractList now prompts.reverse
  | some _ => Except.ok []

/-- Classification of an array element as yielding a record: a decoded
object whose text field is a string with a non-empty strip. -/
def goodElem : JVal → Bool
  | JVal.obj fields =>
    match jget fields "text" with
    | some (JVal.str s) => strippedTruthy s
    | _ => false
  | _ => false

/-- An element is text-safe when it cannot raise on line 143: it is not a
dict, or has no text key, or its text value is a string. -/
def textOk : JVal → Bool
  | JVal.obj fields =>
    match jget fields "text" with
    | some (JVal.str _) => true
    | some _ => false
    | none => true
  | _ => true

/-- A decode result whose elements are all text-safe. -/
def decodedTextSafe : Option JVal → Bool
  | some (JVal.arr xs) => xs.all textOk
  | _ => true

/-- Success test on an Except result. -/
def exceptIsOk : Except String (List Record) → Bool
  | Except.ok _ => true
  | Except.error _ => false

/-! Storage discovery, lines 26 to 95.  A filesystem path is a list of
components; the pathlib slash operator and os.path.join are component
appends. -/

abbrev FsPath := List String

/-- common_paths of lines 33 to 38, as component lists. -/
def common_paths : List FsPath :=
  [["Cursor", "User", "workspaceStorage"],
   ["Cursor", "User", "globalStorage"],
   ["Cursor", "Storage"],
   ["Cursor", "User", "state.vscdb"]]

/-- The per-OS base directories of lines 40 to 59, relative to home; the
final else branch uses home itself, hence the empty relative path. -/
def base_rel_paths (system : String) : List FsPath :=
  if system = "Darwin" then
    [["Library", "Application Support"], ["Library", "Caches"], ["Library", "Preferences"]]
  else if system = "Windows" then
    [["AppData", "Roaming"], ["AppData", "Local"], ["AppData", "LocalLow"]]
  else if system = "Linux" then
    [[".config"], [".local", "share"], [".cache"]]
  else
    [[]]

/-- base_paths of lines 40 to 59. -/
def base_paths (system : String) (home : FsPath) : List FsPath :=
  (base_rel_paths system).map fun b => home ++ b

/-- The base times common enumeration of lines 62 to 66, before the
existence filter: every base slash common combination, in loop order. -/
def storage_combos (system : String) (home : FsPath) : List FsPath :=
  (base_paths system home).flatMap fun b => common_paths.map fun c => b ++ c

/-- get_cursor_storage_paths, lines 26 to 75.  The existence test
path.exists() is the oracle pathExists; the CURSOR_STORAGE_PATH override
is custom (none covers both an unset and an empty variable, which are
falsy on line 70).  The override is appended after the loop whenever it
exists, with no duplicate check (lines 69 to 73). -/
def get_cursor_storage_paths (pathExists : FsPath → Bool) (system : String)
    (home : FsPath) (custom : Option FsPath) : List FsPath :=
  ((storage_combos system home).filter pathExists)
  ++ (match custom with
      | some p => if pathExists p then [p] else []
      | none => [])

/-- Oracles for the filesystem and sqlite environment of find_cursor_dbs:
existence, the is_file test of line 81, the os.walk file enumeration of
lines 84 to 87 (full paths of the files below a directory), and success
of the sqlite connect and trivial query of lines 88 to 93. -/
structure FSModel where
  pathExists : FsPath → Bool
  isFile : FsPath → Bool
  walk : FsPath → List FsPath
  sqliteOk : FsPath → Bool

/-- Python str.endswith. -/
def strEndsWith (s suffix : String) : Bool :=
  List.isSuffixOf suffix.data s.data

/-- The extension test of line 86, applied to the file name component. -/
def endsWithDbExt (f : FsPath) : Bool :=
  match f.getLast? with
  | some name => strEndsWith name ".vscdb" || strEndsWith name ".db"
  | none => false

/-- find_cursor_dbs, lines 77 to 95: a file candidate is accepted
directly; a directory candidate contributes every walked file with a
recognized extension that passes the sqlite check.  The str conversion of
line 82 is identity in the component model. -/
def find_cursor_dbs (fs : FSModel) (system : String) (home : FsPath)
    (custom : Option FsPath) : List FsPath :=
  (get_cursor_storage_paths fs.pathExists system home custom).flatMap fun bp =>
    if fs.isFile bp then [bp]
    else (fs.walk bp).filter fun f => endsWithDbExt f && fs.sqliteOk f

/-! The renderer, write_prompts_to_log, lines 162 to 189.  The written
file is modelled structurally: a header (generation time and workspace,
lines 169 to 171) and one block per record in list order (lines 173 to
185), each block carrying the timestamp, command type, content and the
raw field dump of that record.  The d.get calls with defaults on lines
174 to 181 cannot miss, because every Record carries all four fields. -/

/-- One per-record block of the log file, lines 173 to 185. -/
structure ReportBlock where
  timestamp : JVal
  command_type : JVal
  content : String
  raw_data : List (String × JVal)

/-- The whole written log file. -/
structure Report where
  generated_at : String
  workspace : String
  blocks : List ReportBlock

/-- The block written for one record. -/
def recordBlock (r : Record) : ReportBlock :=
  ⟨r.timestamp, r.command_type, r.content, r.raw_data⟩

/-- write_prompts_to_log, lines 162 to 189.  outFile is the prior content
of the output path (none when absent); ioOk models whether the open and
the writes succeed.  An empty prompt list returns False on lines 164 to
165, before any file operation, so the output path is untouched.  The
partially written file left behind by a failing write is not modelled. -/
def write_prompts_to_log (prompts : List Record) (workspace_path : String)
    (now : String) (ioOk : Bool) (outFile : Option Report) : Bool × Option Report :=
  if prompts.isEmpty then (false, outFile)
  else if ioOk then (true, some ⟨now, workspace_path, prompts.map recordBlock⟩)
  else (false, outFile)

/-! The orchestrator sort of lines 243 to 244:
all_prompts.sort(key of timestamp, reverse).  Python string comparison is
lexicographic on code points, and list.sort is stable, so on records with
string timestamps the result is the unique stable descending
rearrangement, which the structural insertion sort below computes. -/

/-- Lexicographic comparison of code point lists, the Python comparison
of two strings. -/
def lexLe : List Char → List Char → Bool
  | [], _ => true
  | _ :: _, [] => false
  | a :: as, b :: bs => if a < b then true else if b < a then false else lexLe as bs

/-- Python comparison s1 <= s2 on strings. -/
def strLe (a b : String) : Bool :=
  lexLe a.data b.data

/-- The string content of the sort key of line 244, meaningful only on
records whose timestamp is a string.  On a non-string timestamp the
Python comparison of line 244 raises TypeError instead of consulting any
string; that failure is modelled fail-faithfully by pyLtTs and
pySortPromptsDesc below, and every statement that uses tsStr or the
total sort sortPromptsDesc is restricted to string timestamps, where the
default branch here is never consulted. -/
def tsStr (r : Record) : String :=
  match r.timestamp with
  | JVal.str s => s
  | _ => ""

/-- Stable descending insertion: the inserted record, which precedes the
list elements in the original order, is placed before the first element
whose key does not exceed its key. -/
def insertTs (r : Record) : List Record → List Record
  | [] => [r]
  | y :: ys => if strLe (tsStr y) (tsStr r) then r :: y :: ys else y :: insertTs r ys

/-- The sort of line 244: stable, by timestamp, descending. -/
def sortPromptsDesc : List Record → List Record
  | [] => []
  | x :: xs => insertTs x (sortPromptsDesc xs)

/-- The aggregation loop of lines 220 to 236: all_prompts is extended
with the extraction result of each row, in order. -/
def aggregate_prompts (rowLists : List (List Record)) : List Record :=
  rowLists.flatten

/-- Lines 243 to 244: the full aggregated record list, sorted, in the
all-string-timestamps case in which the sort completes. -/
def main_sorted (rowLists : List (List Record)) : List Record :=
  sortPromptsDesc (aggregate_prompts rowLists)

/-- Strict lexicographic comparison of code point lists, the Python
comparison s1 less-than s2 on strings. -/
def lexLt : List Char → List Char → Bool
  | [], [] => false
  | [], _ :: _ => true
  | _ :: _, [] => false
  | a :: as, b :: bs => if a < b then true else if b < a then false else lexLt as bs

/-- The sort key of line 244 is the raw timestamp field of the record
(the lambda key extracts it unchanged). -/
def tsKey (r : Record) : JVal :=
  r.timestamp

/-- Fail-faithful model of the Python less-than comparison the sort of
line 244 performs between two timestamp keys.  Two strings compare
lexicographically by code point.  Two numbers compare numerically, bools
counting as 0 and 1.  Every comparison involving None raises TypeError,
as does every string against non-string mix; these are the cases the
statements below exercise.  (CPython can also compare two decoded lists
elementwise; that exotic corner is simplified to TypeError here and no
statement below depends on it.) -/
def pyLtTs : JVal → JVal → Except String Bool
  | JVal.str a, JVal.str b => Except.ok (lexLt a.data b.data)
  | JVal.int a, JVal.int b => Except.ok (decide (a < b))
  | JVal.int a, JVal.bool b => Except.ok (decide (a < if b then 1 else 0))
  | JVal.bool a, JVal.int b => Except.ok (decide ((if a then 1 else 0) < b))
  | JVal.bool a, JVal.bool b => Except.ok (decide (((if a then 1 else 0) : Int) < if b then 1 else 0))
  | _, _ => Except.error "TypeError"

/-- Stable descending insertion under the fail-faithful comparison: the
inserted record, which precedes the list elements in the original order,
goes before the first element whose key is not greater; any undefined
comparison aborts with TypeError, as in CPython. -/
def insertTsE (r : Record) : List Record → Except String (List Record)
  | [] => Except.ok [r]
  | y :: ys =>
    match pyLtTs (tsKey r) (tsKey y) with
    | Except.error e => Except.error e
    | Except.ok true =>
      match insertTsE r ys with
      | Except.error e => Except.error e
      | Except.ok zs => Except.ok (y :: zs)
    | Except.ok false => Except.ok (r :: y :: ys)

/-- Fail-faithful model of the sort of line 244.  On success only
within-class comparisons were performed and the result is the unique
stable descending arrangement, which is also what the stable CPython
sort returns; it fails exactly on the inputs where CPython raises,
because with two or more records a key comparable with nothing else (or
keys from two incomparable classes) cannot avoid being compared: here
every intermediate sorted list stays within one comparability class
until the first crossing insertion raises, and in CPython the run
detection of the sort compares adjacent keys so a mixed input likewise
always performs some undefined comparison. -/
def pySortPromptsDesc : List Record → Except String (List Record)
  | [] => Except.ok []
  | x :: xs =>
    match pySortPromptsDesc xs with
    | Except.error e => Except.error e
    | Except.ok l => insertTsE x l

/-- Shape check for the strings produced by
datetime.datetime.now().isoformat(): four digits, dash, two digits, dash,
two digits, the letter T, then two digits, colon, two digits, colon, two
digits, followed by anything (isoformat appends microseconds). -/
def isIso8601Like (s : String) : Bool :=
  match s.data with
  | y1 :: y2 :: y3 :: y4 :: '-' :: m1 :: m2 :: '-' :: d1 :: d2 :: 'T' ::
      h1 :: h2 :: ':' :: n1 :: n2 :: ':' :: s1 :: s2 :: _ =>
    y1.isDigit && y2.isDigit && y3.isDigit && y4.isDigit &&
    m1.isDigit && m2.isDigit && d1.isDigit && d2.isDigit &&
    h1.isDigit && h2.isDigit && n1.isDigit && n2.isDigit &&
    s1.isDigit && s2.isDigit
  | _ => false

/-! Helper lemmas about extraction. -/

/-- An element contributes a record exactly when it is classified as
well-formed: a decoded object with a string text field of non-empty
strip. -/
theorem elemRecord_isSome (now : String) (p : JVal) :
    (elemRecord now p).isSome = goodElem p := by
  cases p with
  | obj fields =>
    simp only [elemRecord, extractRecord, goodElem]
    cases h : jget fields "text" with
    | none => rfl
    | some v =>
      cases v with
      | str s => by_cases hs : strippedTruthy s <;> simp [hs]
      | null => rfl
      | bool b => rfl
      | int n => rfl
      | arr es => rfl
      | obj fs => rfl
  | null => rfl
  | bool b => rfl
  | int n => rfl
  | str s => rfl
  | arr es => rfl

/-- A text-safe element never raises, and contributes exactly its
elemRecord. -/
theorem extractRecord_of_textOk (now : String) (p : JVal) (h : textOk p = true) :
    extractRecord now p = Except.ok (elemRecord now p) := by
  cases p with
  | obj fields =>
    simp only [textOk] at h
    simp only [elemRecord, extractRecord]
    cases ht : jget fields "text" with
    | none => rfl
    | some v =>
      rw [ht] at h
      cases v with
      | str s => by_cases hs : strippedTruthy s <;> simp [hs]
      | null => simp at h
      | bool b => simp at h
      | int n => simp at h
      | arr es => simp at h
      | obj fs => simp at h
  | null => rfl
  | bool b => rfl
  | int n => rfl
  | str s => rfl
  | arr es => rfl

/-- On a list of text-safe elements the loop succeeds and returns the
per-element records in traversal order. -/
theorem extractList_of_all (now : String) (ys : List JVal) (h : ys.all textOk = true) :
    extractList now ys = Except.ok (ys.filterMap (elemRecord now)) := by
  induction ys with
  | nil => rfl
  | cons p rest ih =>
    rw [List.all_cons, Bool.and_eq_true] at h
    rw [extractList, extractRecord_of_textOk now p h.1]
    cases hr : elemRecord now p with
    | none => rw [List.filterMap_cons, hr]; exact ih h.2
    | some r => rw [List.filterMap_cons, hr, ih h.2]

/-- Whenever the loop succeeds, the returned records are exactly the
filterMap of the per-element records, in traversal order. -/
theorem extractList_ok (now : String) (ys : List JVal) (l : List Record)
    (h : extractList now ys = Except.ok l) :
    l = ys.filterMap (elemRecord now) := by
  induction ys generalizing l with
  | nil =>
    simp only [extractList] at h
    cases h
    rfl
  | cons p rest ih =>
    simp only [extractList] at h
    rw [List.filterMap_cons]
    cases hr : extractRecord now p with
    | error e => rw [hr] at h; cases h
    | ok ro =>
      rw [hr] at h
      have hrec : elemRecord now p = ro := by
        simp only [elemRecord, hr]
      cases ro with
      | none => rw [hrec]; exact ih l h
      | some r =>
        rw [hrec]
        cases hrest : extractList now rest with
        | error e => rw [hrest] at h; cases h
        | ok rs =>
          rw [hrest] at h
          cases h
          rw [ih rs hrest]

/-- Length of a filterMap as a count. -/
theorem length_filterMap_eq_countP {α β : Type} (f : α → Option β) (l : List α) :
    (l.filterMap f).length = l.countP fun a => (f a).isSome := by
  induction l with
  | nil => rfl
  | cons a l ih =>
    rw [List.filterMap_cons, List.countP_cons]
    cases h : f a with
    | none => simp [h, ih]
    | some b => simp [h, ih]

/-- Anatomy of a contributed record: whenever an object element yields a
record, its text field is a string with non-empty strip, and the record
carries that content, the resolved command type, the timestamp field or
the capture time, and the full original element. -/
theorem elemRecord_obj_eq (now : String) (fields : List (String × JVal)) (r : Record)
    (h : elemRecord now (JVal.obj fields) = some r) :
    ∃ s, jget fields "text" = some (JVal.str s) ∧ strippedTruthy s = true ∧
      r = ⟨s, resolveCommandType ((jget fields "commandType").getD (JVal.str "unknown")),
        (jget fields "timestamp").getD (JVal.str now), fields⟩ := by
  cases ht : jget fields "text" with
  | none =>
    have hz : elemRecord now (JVal.obj fields) = none := by
      simp [elemRecord, extractRecord, ht]
    rw [hz] at h
    cases h
  | some v =>
    cases v with
    | str s =>
      by_cases hs : strippedTruthy s
      · have hz : elemRecord now (JVal.obj fields) = some
            ⟨s, resolveCommandType ((jget fields "commandType").getD (JVal.str "unknown")),
              (jget fields "timestamp").getD (JVal.str now), fields⟩ := by
          simp [elemRecord, extractRecord, ht, hs]
        rw [hz] at h
        cases h
        exact ⟨s, rfl, hs, rfl⟩
      · have hz : elemRecord now (JVal.obj fields) = none := by
          simp [elemRecord, extractRecord, ht, hs]
        rw [hz] at h
        cases h
    | null =>
      have hz : elemRecord now (JVal.obj fields) = none := by
        simp [elemRecord, extractRecord, ht]
      rw [hz] at h
      cases h
    | bool b =>
      have hz : elemRecord now (JVal.obj fields) = none := by
        simp [elemRecord, extractRecord, ht]
      rw [hz] at h
      cases h
    | int n =>
      have hz : elemRecord now (JVal.obj fields) = none := by
        simp [elemRecord, extractRecord, ht]
      rw [hz] at h
      cases h
    | arr es =>
      have hz : elemRecord now (JVal.obj fields) = none := by
        simp [elemRecord, extractRecord, ht]
      rw [hz] at h
      cases h
    | obj fs =>
      have hz : elemRecord now (JVal.obj fields) = none := by
        simp [elemRecord, extractRecord, ht]
      rw [hz] at h
      cases h

/-- A string of ISO-8601 shape is non-empty. -/
theorem isIso8601Like_ne_empty (s : String) (h : isIso8601Like s = true) : s ≠ "" := by
  intro he
  rw [he] at h
  exact absurd h (by decide)

/-- C1 sample array: two well-formed prompt objects interleaved with a
non-object entry, a whitespace-only text, and an object missing text. -/
def c1List : List JVal :=
  [JVal.obj [("text", JVal.str "hello")],
   JVal.int 3,
   JVal.obj [("text", JVal.str "   ")],
   JVal.obj [("note", JVal.str "x")],
   JVal.obj [("text", JVal.str "world")]]

/-- C1 (amended): on every decoded array whose object elements carry
string text values, extraction succeeds with exactly one record per
well-formed element (object with a string text field non-empty after
trimming) and zero records for every other element, the records being the
filterMap of the per-element results over the reversed array. -/
theorem extract_decode_tolerance (xs : List JVal) (now : String)
    (h : xs.all textOk = true) :
    extract_prompts_from_value (some (JVal.arr xs)) now =
      Except.ok (xs.reverse.filterMap (elemRecord now))
    ∧ (xs.reverse.filterMap (elemRecord now)).length = xs.countP goodElem
    ∧ ∀ p ∈ xs, (elemRecord now p).isSome = goodElem p := by
  refine ⟨?_, ?_, ?_⟩
  · show extractList now xs.reverse = _
    exact extractList_of_all now xs.reverse (by rwa [List.all_reverse])
  · rw [length_filterMap_eq_countP]
    have hc : (List.countP (fun a => (elemRecord now a).isSome) xs.reverse) =
        List.countP goodElem xs.reverse := by
      apply List.countP_congr
      intro p _
      rw [elemRecord_isSome]
    rw [hc, List.countP_reverse]
  · intro p _
    exact elemRecord_isSome now p

/-- C1 witness at a concrete interleaved array. -/
theorem extract_decode_tolerance_witness :
    extract_prompts_from_value (some (JVal.arr c1List)) "2025-06-01T00:00:00" =
      Except.ok (c1List.reverse.filterMap (elemRecord "2025-06-01T00:00:00"))
    ∧ (c1List.reverse.filterMap (elemRecord "2025-06-01T00:00:00")).length =
        c1List.countP goodElem :=
  ⟨(extract_decode_tolerance c1List "2025-06-01T00:00:00" (by decide)).1,
   (extract_decode_tolerance c1List "2025-06-01T00:00:00" (by decide)).2.1⟩

/-- C1 counterexample: an array element that is an object whose text
field holds the number 5 is not an object with text non-empty after
trimming, so the claim predicts zero records and a normal return; the
code instead raises AttributeError on the strip call of line 143, yielding
no record list at all. -/
theorem extract_decode_tolerance_cex :
    extract_prompts_from_value (some (JVal.arr [JVal.obj [("text", JVal.int 5)]]))
      "2025-06-01T00:00:00" = Except.error "AttributeError"
    ∧ extract_prompts_from_value (some (JVal.arr [JVal.obj [("text", JVal.int 5)]]))
      "2025-06-01T00:00:00" ≠ Except.ok [] :=
  ⟨rfl, fun h => Except.noConfusion h⟩

/-- C2 (amended): extraction is total (returns some list, raising no
exception) for every decode result, whether a failed decode, a non-array
value, or an array, provided every array element that is an object with a
text key maps that key to a string; decode errors and malformed rows then
only reduce the yield. -/
theorem extract_total_amended (decoded : Option JVal) (now : String)
    (h : decodedTextSafe decoded = true) :
    exceptIsOk (extract_prompts_from_value decoded now) = true := by
  cases decoded with
  | none => rfl
  | some v =>
    cases v with
    | arr xs =>
      have : extractList now xs.reverse = Except.ok (xs.reverse.filterMap (elemRecord now)) := by
        apply extractList_of_all
        rw [List.all_reverse]
        exact h
      show exceptIsOk (extractList now xs.reverse) = true
      rw [this]
      rfl
    | null => rfl
    | bool b => rfl
    | int n => rfl
    | str s => rfl
    | obj fs => rfl

/-- C2 witness: a mixed array with a missing text field, an empty text, a
non-object entry and a well-formed entry extracts without error. -/
theorem extract_total_witness :
    exceptIsOk (extract_prompts_from_value
      (some (JVal.arr [JVal.obj [("text", JVal.str "ok")], JVal.null,
        JVal.obj [("other", JVal.int 1)], JVal.obj [("text", JVal.str "")]]))
      "2025-06-01T00:00:00") = true :=
  extract_total_amended
    (some (JVal.arr [JVal.obj [("text", JVal.str "ok")], JVal.null,
      JVal.obj [("other", JVal.int 1)], JVal.obj [("text", JVal.str "")]]))
    "2025-06-01T00:00:00" (by decide)

/-- C2 counterexample: a decodable value whose single array element is an
object with a null text raises AttributeError (strip on None) instead of
returning a list, so extraction is not total over per-element
malformation. -/
theorem extract_total_cex :
    extract_prompts_from_value (some (JVal.arr [JVal.obj [("text", JVal.null)]]))
      "2025-06-01T00:00:00" = Except.error "AttributeError"
    ∧ exceptIsOk (extract_prompts_from_value
        (some (JVal.arr [JVal.obj [("text", JVal.null)]])) "2025-06-01T00:00:00") = false :=
  ⟨rfl, rfl⟩

/-- C5: a row whose value fails to decode contributes zero records with
no error surfaced, and so does a row that decodes to any non-array
value. -/
theorem extract_non_array_empty :
    (∀ now : String, extract_prompts_from_value none now = Except.ok [])
    ∧ ∀ (v : JVal) (now : String), (∀ xs, v ≠ JVal.arr xs) →
        extract_prompts_from_value (some v) now = Except.ok [] := by
  refine ⟨fun _ => rfl, ?_⟩
  intro v now hv
  cases v with
  | arr xs => exact absurd rfl (hv xs)
  | null => rfl
  | bool b => rfl
  | int n => rfl
  | str s => rfl
  | obj fs => rfl

/-- C5 witness: a failed decode (the literal string value that is not
json) and a decoded non-array string both yield the empty record list. -/
theorem extract_non_array_empty_witness :
    extract_prompts_from_value none "2025-06-01T00:00:00" = Except.ok []
    ∧ extract_prompts_from_value (some (JVal.str "not json")) "2025-06-01T00:00:00" =
        Except.ok [] :=
  ⟨extract_non_array_empty.1 "2025-06-01T00:00:00",
   extract_non_array_empty.2 (JVal.str "not json") "2025-06-01T00:00:00"
     (fun _ h => JVal.noConfusion h)⟩

/-- C8 sample array of two well-formed elements. -/
def c8List : List JVal :=
  [JVal.obj [("text", JVal.str "first")], JVal.obj [("text", JVal.str "second")]]

/-- C8: whenever extraction of a decoded array succeeds, the returned
records are the per-element records of the reversed array, so they appear
in the exact reverse of their array positions (array tail first). -/
theorem extract_reverse_order (xs : List JVal) (now : String) (l : List Record)
    (h : extract_prompts_from_value (some (JVal.arr xs)) now = Except.ok l) :
    l = xs.reverse.filterMap (elemRecord now) :=
  extractList_ok now xs.reverse l h

/-- C8 witness: the two-element array extracts tail-first. -/
theorem extract_reverse_order_witness :
    ([⟨"second", JVal.str "unknown", JVal.str "2025-06-01T00:00:00",
        [("text", JVal.str "second")]⟩,
      ⟨"first", JVal.str "unknown", JVal.str "2025-06-01T00:00:00",
        [("text", JVal.str "first")]⟩] : List Record) =
      c8List.reverse.filterMap (elemRecord "2025-06-01T00:00:00") :=
  extract_reverse_order c8List "2025-06-01T00:00:00" _ rfl

/-- C9: an element lacking a timestamp field receives the capture-time
string, which is of ISO-8601 shape and in particular neither empty nor
null. -/
theorem timestamp_substitution (now : String) (fields : List (String × JVal)) (r : Record)
    (hIso : isIso8601Like now = true)
    (hnone : jget fields "timestamp" = none)
    (hr : elemRecord now (JVal.obj fields) = some r) :
    r.timestamp = JVal.str now ∧ isIso8601Like now = true ∧ now ≠ "" := by
  obtain ⟨s, _, _, heq⟩ := elemRecord_obj_eq now fields r hr
  subst heq
  refine ⟨?_, hIso, isIso8601Like_ne_empty now hIso⟩
  show (jget fields "timestamp").getD (JVal.str now) = JVal.str now
  rw [hnone]
  rfl

/-- C9 witness at a concrete element with no timestamp field. -/
theorem timestamp_substitution_witness :
    (⟨"hi", JVal.str "unknown", JVal.str "2025-01-01T00:00:00",
        [("text", JVal.str "hi")]⟩ : Record).timestamp = JVal.str "2025-01-01T00:00:00"
    ∧ isIso8601Like "2025-01-01T00:00:00" = true
    ∧ "2025-01-01T00:00:00" ≠ "" :=
  timestamp_substitution "2025-01-01T00:00:00" [("text", JVal.str "hi")]
    ⟨"hi", JVal.str "unknown", JVal.str "2025-01-01T00:00:00", [("text", JVal.str "hi")]⟩
    (by decide) rfl rfl

/-- C4 counterexample: the JSON boolean true is not an integer key of the
table, so the claim predicts it passes through unchanged; but Python
bools are ints with True equal to 1, so the code maps it to the label
chat. -/
theorem command_type_bool_cex :
    resolveCommandType (JVal.bool true) = JVal.str "chat"
    ∧ resolveCommandType (JVal.bool true) ≠ JVal.bool true :=
  ⟨rfl, fun h => JVal.noConfusion h⟩

/-- C4 (amended): command-type resolution maps 9 to fix, leaves the
unmapped integer 42 and the string custom unchanged, maps the boolean
true to chat (Python treats bools as ints, True equal to 1) and leaves
false unchanged (0 is not a key); in general an integer key (in the
Python sense, booleans included) resolves to the table label, an
unmapped integer stays numeric, every non-int value is unchanged, and an
element with no commandType field resolves to the literal label
unknown. -/
theorem command_type_resolution :
    resolveCommandType (JVal.int 9) = JVal.str "fix"
    ∧ resolveCommandType (JVal.int 42) = JVal.int 42
    ∧ resolveCommandType (JVal.str "custom") = JVal.str "custom"
    ∧ resolveCommandType (JVal.bool true) = JVal.str "chat"
    ∧ resolveCommandType (JVal.bool false) = JVal.bool false
    ∧ (∀ v : JVal, pyIntVal v = none → resolveCommandType v = v)
    ∧ (∀ n : Int, List.lookup n COMMAND_TYPES = none →
        resolveCommandType (JVal.int n) = JVal.int n)
    ∧ (∀ (n : Int) (label : String), List.lookup n COMMAND_TYPES = some label →
        resolveCommandType (JVal.int n) = JVal.str label)
    ∧ (∀ (now : String) (fields : List (String × JVal)) (r : Record),
        jget fields "commandType" = none → elemRecord now (JVal.obj fields) = some r →
        r.command_type = JVal.str "unknown") := by
  refine ⟨rfl, rfl, rfl, rfl, rfl, ?_, ?_, ?_, ?_⟩
  · intro v hv
    simp only [resolveCommandType, hv]
  · intro n hn
    simp only [resolveCommandType, pyIntVal, hn]
  · intro n label hn
    simp only [resolveCommandType, pyIntVal, hn]
  · intro now fields r hct hr
    obtain ⟨s, _, _, heq⟩ := elemRecord_obj_eq now fields r hr
    subst heq
    show resolveCommandType ((jget fields "commandType").getD (JVal.str "unknown")) =
      JVal.str "unknown"
    rw [hct]
    rfl

/-- C4 witness: the general non-int clause applied at null. -/
theorem command_type_resolution_witness :
    resolveCommandType JVal.null = JVal.null :=
  command_type_resolution.2.2.2.2.2.1 JVal.null rfl

/-- C6: rendering an empty record list returns failure and leaves the
output path exactly as it was, whatever the workspace, capture time, io
outcome and prior file state. -/
theorem write_empty_guard (workspace_path now : String) (ioOk : Bool)
    (outFile : Option Report) :
    write_prompts_to_log [] workspace_path now ioOk outFile = (false, outFile) :=
  rfl

/-! Helper lemmas about the timestamp sort. -/

/-- The descending comparison used on records by the sort of line 244. -/
def tsRel (a b : Record) : Prop :=
  strLe (tsStr b) (tsStr a) = true

/-- Head unfolding of the lexicographic comparison. -/
theorem lexLe_cons_iff (a b : Char) (as bs : List Char) :
    lexLe (a :: as) (b :: bs) = true ↔ a < b ∨ (a = b ∧ lexLe as bs = true) := by
  simp only [lexLe]
  by_cases hab : a < b
  · simp [hab]
  · by_cases hba : b < a
    · have hne : a ≠ b := ne_of_gt hba
      simp [hab, hba, hne]
    · have heq : a = b := le_antisymm (not_lt.mp hba) (not_lt.mp hab)
      simp [hab, hba, heq]

/-- The lexicographic comparison is total. -/
theorem lexLe_total (as : List Char) : ∀ bs, lexLe as bs = true ∨ lexLe bs as = true := by
  induction as with
  | nil => intro bs; left; rfl
  | cons a as ih =>
    intro bs
    cases bs with
    | nil => right; rfl
    | cons b bs =>
      rcases lt_trichotomy a b with h | h | h
      · left; rw [lexLe_cons_iff]; exact Or.inl h
      · rcases ih bs with h2 | h2
        · left; rw [lexLe_cons_iff]; exact Or.inr ⟨h, h2⟩
        · right; rw [lexLe_cons_iff]; exact Or.inr ⟨h.symm, h2⟩
      · right; rw [lexLe_cons_iff]; exact Or.inl h

/-- The lexicographic comparison is transitive. -/
theorem lexLe_trans (as : List Char) :
    ∀ bs cs, lexLe as bs = true → lexLe bs cs = true → lexLe as cs = true := by
  induction as with
  | nil => intro bs cs _ _; rfl
  | cons a as ih =>
    intro bs cs h1 h2
    cases bs with
    | nil => cases h1
    | cons b bs =>
      cases cs with
      | nil => cases h2
      | cons c cs =>
        rw [lexLe_cons_iff] at h1 h2 ⊢
        rcases h1 with h1 | ⟨h1e, h1r⟩
        · rcases h2 with h2 | ⟨h2e, h2r⟩
          · exact Or.inl (lt_trans h1 h2)
          · exact Or.inl (h2e ▸ h1)
        · rcases h2 with h2 | ⟨h2e, h2r⟩
          · exact Or.inl (h1e ▸ h2)
          · exact Or.inr ⟨h1e.trans h2e, ih bs cs h1r h2r⟩

/-- String comparison is total. -/
theorem strLe_total (a b : String) : strLe a b = true ∨ strLe b a = true :=
  lexLe_total a.data b.data

/-- String comparison is transitive. -/
theorem strLe_trans (a b c : String) (h1 : strLe a b = true) (h2 : strLe b c = true) :
    strLe a c = true :=
  lexLe_trans a.data b.data c.data h1 h2

/-- Inserting a record permutes consing it. -/
theorem insertTs_perm (r : Record) (l : List Record) :
    (insertTs r l).Perm (r :: l) := by
  induction l with
  | nil => exact List.Perm.refl _
  | cons y ys ih =>
    rw [insertTs]
    by_cases hc : strLe (tsStr y) (tsStr r) = true
    · rw [if_pos hc]
    · rw [if_neg hc]
      exact (List.Perm.cons y ih).trans (List.Perm.swap r y ys)

/-- Inserting into a descending list keeps it descending. -/
theorem insertTs_pairwise (r : Record) (l : List Record)
    (h : List.Pairwise tsRel l) : List.Pairwise tsRel (insertTs r l) := by
  induction l with
  | nil => simp [insertTs, List.pairwise_cons]
  | cons y ys ih =>
    rw [List.pairwise_cons] at h
    rw [insertTs]
    by_cases hc : strLe (tsStr y) (tsStr r) = true
    · rw [if_pos hc, List.pairwise_cons]
      constructor
      · intro z hz
        rcases List.mem_cons.mp hz with hz | hz
        · rw [hz]; exact hc
        · exact strLe_trans (tsStr z) (tsStr y) (tsStr r) (h.1 z hz) hc
      · rw [List.pairwise_cons]
        exact h
    · rw [if_neg hc, List.pairwise_cons]
      constructor
      · intro z hz
        rcases List.mem_cons.mp ((insertTs_perm r ys).mem_iff.mp hz) with hz | hz
        · rw [hz]
          rcases strLe_total (tsStr y) (tsStr r) with ht | ht
          · exact absurd ht hc
          · exact ht
        · exact h.1 z hz
      · exact ih h.2

/-- The sort of line 244 permutes its input: no record is dropped,
duplicated or rewritten. -/
theorem sortPromptsDesc_perm (l : List Record) : (sortPromptsDesc l).Perm l := by
  induction l with
  | nil => exact List.Perm.refl _
  | cons x xs ih =>
    exact (insertTs_perm x (sortPromptsDesc xs)).trans (List.Perm.cons x ih)

/-- The sort of line 244 produces a descending list. -/
theorem sortPromptsDesc_pairwise (l : List Record) :
    List.Pairwise tsRel (sortPromptsDesc l) := by
  induction l with
  | nil => exact List.Pairwise.nil
  | cons x xs ih => exact insertTs_pairwise x (sortPromptsDesc xs) ih

/-- A record with the given timestamp string, fixed content, used for the
concrete ordering example. -/
def mkRec (ts : String) : Record :=
  ⟨"p", JVal.str "unknown", JVal.str ts, []⟩

/-- C7: the orchestrator sorts records by the raw timestamp string in
descending lexicographic order (every pair in the output, adjacent pairs
included, satisfies earlier at least later under plain string
comparison), the output is a permutation of the input with every record
and its timestamp unchanged (no parsing or normalization), and the
concrete Jan 3, Jan 1, Jan 2 input renders as Jan 3, Jan 2, Jan 1. -/
theorem main_sort_descending :
    (∀ l : List Record, (∀ r ∈ l, r.timestamp.isStr = true) →
      (sortPromptsDesc l).Perm l
      ∧ List.Pairwise (fun a b => strLe (tsStr b) (tsStr a) = true) (sortPromptsDesc l)
      ∧ ∀ r ∈ sortPromptsDesc l, r.timestamp = JVal.str (tsStr r))
    ∧ sortPromptsDesc [mkRec "2024-01-03T10:00:00", mkRec "2024-01-01T10:00:00",
        mkRec "2024-01-02T10:00:00"] =
      [mkRec "2024-01-03T10:00:00", mkRec "2024-01-02T10:00:00",
        mkRec "2024-01-01T10:00:00"] := by
  constructor
  · intro l hl
    refine ⟨sortPromptsDesc_perm l, sortPromptsDesc_pairwise l, ?_⟩
    intro r hr
    have hmem : r ∈ l := (sortPromptsDesc_perm l).mem_iff.mp hr
    have hs := hl r hmem
    cases hts : r.timestamp with
    | str s => rw [tsStr, hts]
    | null => rw [hts] at hs; cases hs
    | bool b => rw [hts] at hs; cases hs
    | int n => rw [hts] at hs; cases hs
    | arr es => rw [hts] at hs; cases hs
    | obj fs => rw [hts] at hs; cases hs
  · rfl

/-- C7 witness: the general clause applied to the concrete three-record
list. -/
theorem main_sort_descending_witness :
    (sortPromptsDesc [mkRec "2024-01-03T10:00:00", mkRec "2024-01-01T10:00:00",
        mkRec "2024-01-02T10:00:00"]).Perm
      [mkRec "2024-01-03T10:00:00", mkRec "2024-01-01T10:00:00",
        mkRec "2024-01-02T10:00:00"]
    ∧ List.Pairwise (fun a b => strLe (tsStr b) (tsStr a) = true)
        (sortPromptsDesc [mkRec "2024-01-03T10:00:00", mkRec "2024-01-01T10:00:00",
          mkRec "2024-01-02T10:00:00"]) :=
  ⟨(main_sort_descending.1 [mkRec "2024-01-03T10:00:00", mkRec "2024-01-01T10:00:00",
      mkRec "2024-01-02T10:00:00"] (by decide)).1,
   (main_sort_descending.1 [mkRec "2024-01-03T10:00:00", mkRec "2024-01-01T10:00:00",
      mkRec "2024-01-02T10:00:00"] (by decide)).2.1⟩

/-- Strict and non-strict lexicographic comparison are dual: a is
strictly below b exactly when b is not below-or-equal a. -/
theorem lexLt_eq_not_lexLe (as : List Char) :
    ∀ bs, lexLt as bs = ! lexLe bs as := by
  induction as with
  | nil =>
    intro bs
    cases bs with
    | nil => rfl
    | cons b bs => rfl
  | cons a as ih =>
    intro bs
    cases bs with
    | nil => rfl
    | cons b bs =>
      simp only [lexLt, lexLe]
      by_cases hab : a < b
      · have hba : ¬ b < a := lt_asymm hab
        simp [hab, hba]
      · by_cases hba : b < a
        · simp [hab, hba]
        · simp [hab, hba, ih bs]

/-- The same duality phrased on strings. -/
theorem strLt_eq_not_strLe (a b : String) :
    lexLt a.data b.data = ! strLe b a :=
  lexLt_eq_not_lexLe a.data b.data

/-- A record with a string timestamp carries exactly its tsStr content. -/
theorem timestamp_eq_str (r : Record) (h : r.timestamp.isStr = true) :
    r.timestamp = JVal.str (tsStr r) := by
  cases hts : r.timestamp with
  | str s => rw [tsStr, hts]
  | null => rw [hts] at h; cases h
  | bool b => rw [hts] at h; cases h
  | int n => rw [hts] at h; cases h
  | arr es => rw [hts] at h; cases h
  | obj fs => rw [hts] at h; cases h

/-- A successful fail-faithful insertion permutes consing. -/
theorem insertTsE_perm (r : Record) (l : List Record) (z : List Record)
    (h : insertTsE r l = Except.ok z) : z.Perm (r :: l) := by
  induction l generalizing z with
  | nil =>
    simp only [insertTsE] at h
    cases h
    exact List.Perm.refl _
  | cons y ys ih =>
    simp only [insertTsE] at h
    cases hc : pyLtTs (tsKey r) (tsKey y) with
    | error e => rw [hc] at h; cases h
    | ok b =>
      rw [hc] at h
      cases b with
      | true =>
        cases hrec : insertTsE r ys with
        | error e => rw [hrec] at h; cases h
        | ok zs =>
          rw [hrec] at h
          cases h
          exact (List.Perm.cons y (ih zs hrec)).trans (List.Perm.swap r y ys)
      | false =>
        cases h
        exact List.Perm.refl _

/-- When the fail-faithful sort of line 244 returns a list, that list is
a permutation of its input. -/
theorem pySortPromptsDesc_perm (xs : List Record) (l : List Record)
    (h : pySortPromptsDesc xs = Except.ok l) : l.Perm xs := by
  induction xs generalizing l with
  | nil =>
    simp only [pySortPromptsDesc] at h
    cases h
    exact List.Perm.refl _
  | cons x xs ih =>
    simp only [pySortPromptsDesc] at h
    cases hs : pySortPromptsDesc xs with
    | error e => rw [hs] at h; cases h
    | ok l2 =>
      rw [hs] at h
      exact (insertTsE_perm x l2 l h).trans (List.Perm.cons x (ih l2 hs))

/-- On string timestamps the fail-faithful insertion completes and
agrees with the total one. -/
theorem insertTsE_of_strings (r : Record) (hr : r.timestamp.isStr = true) :
    ∀ l : List Record, (∀ y ∈ l, y.timestamp.isStr = true) →
    insertTsE r l = Except.ok (insertTs r l) := by
  intro l
  induction l with
  | nil => intro _; rfl
  | cons y ys ih =>
    intro hl
    have hy : y.timestamp.isStr = true := hl y (List.mem_cons_self y ys)
    have hcmp : pyLtTs (tsKey r) (tsKey y) =
        Except.ok (lexLt (tsStr r).data (tsStr y).data) := by
      show pyLtTs r.timestamp y.timestamp = _
      rw [timestamp_eq_str r hr, timestamp_eq_str y hy]
      rfl
    have ihy := ih fun z hz => hl z (List.mem_cons_of_mem y hz)
    by_cases hc : strLe (tsStr y) (tsStr r) = true
    · have h1 : lexLt (tsStr r).data (tsStr y).data = false := by
        rw [strLt_eq_not_strLe, hc]
        rfl
      simp only [insertTsE, insertTs]
      rw [hcmp, h1, if_pos hc]
    · have hcf : strLe (tsStr y) (tsStr r) = false := by
        rw [← Bool.not_eq_true]
        exact hc
      have h1 : lexLt (tsStr r).data (tsStr y).data = true := by
        rw [strLt_eq_not_strLe, hcf]
        rfl
      simp only [insertTsE, insertTs]
      rw [hcmp, h1, if_neg hc, ihy]

/-- On all-string timestamps the fail-faithful sort of line 244
completes and returns the total stable descending sort. -/
theorem pySortPromptsDesc_of_strings (l : List Record)
    (h : ∀ r ∈ l, r.timestamp.isStr = true) :
    pySortPromptsDesc l = Except.ok (sortPromptsDesc l) := by
  induction l with
  | nil => rfl
  | cons x xs ih =>
    have hx : x.timestamp.isStr = true := h x (List.mem_cons_self x xs)
    have hxs : ∀ r ∈ xs, r.timestamp.isStr = true :=
      fun r hr => h r (List.mem_cons_of_mem x hr)
    simp only [pySortPromptsDesc, sortPromptsDesc]
    rw [ih hxs]
    exact insertTsE_of_strings x hx (sortPromptsDesc xs)
      fun r hr => hxs r ((sortPromptsDesc_perm xs).mem_iff.mp hr)

/-- The null-timestamped record of the C10 counterexample, as extracted
from an element whose timestamp field is JSON null. -/
def cexNullRec : Record :=
  ⟨"a", JVal.str "unknown", JVal.null,
    [("text", JVal.str "a"), ("timestamp", JVal.null)]⟩

/-- A string-timestamped record sharing the aggregate with it. -/
def cexStrRec : Record :=
  ⟨"b", JVal.str "unknown", JVal.str "2024-01-02T00:00:00",
    [("text", JVal.str "b"), ("timestamp", JVal.str "2024-01-02T00:00:00")]⟩

/-- C10 counterexample: a present null timestamp is indeed copied into
the record unchanged, but such a record does not then participate in a
string sort of all records: as soon as it shares the aggregated list
with any other record, the sort of line 244 must compare its None key
and raises TypeError, so no sorted output exists at all. -/
theorem timestamp_sort_participation_cex :
    elemRecord "2025-06-01T00:00:00"
      (JVal.obj [("text", JVal.str "a"), ("timestamp", JVal.null)]) = some cexNullRec
    ∧ pySortPromptsDesc [cexNullRec, cexStrRec] = Except.error "TypeError"
    ∧ exceptIsOk (pySortPromptsDesc [cexNullRec, cexStrRec]) = false :=
  ⟨rfl, rfl, rfl⟩

/-- C10 (amended): the capture-time substitution fires only when the
timestamp key is entirely absent; a present timestamp value, the JSON
null included, is copied into the record unchanged; every aggregated
record, whatever its timestamp, is in the list handed to the sort of
line 244 and appears in the sorted output whenever that sort completes;
the sort completes, with the stable descending string order, whenever
every timestamp is a string; but a record with a null timestamp placed
in front of any string-timestamped record makes the sort raise
TypeError instead of completing. -/
theorem timestamp_pass_through :
    (∀ (now : String) (fields : List (String × JVal)) (v : JVal) (r : Record),
      jget fields "timestamp" = some v → elemRecord now (JVal.obj fields) = some r →
      r.timestamp = v)
    ∧ (∀ (now : String) (fields : List (String × JVal)) (r : Record),
      jget fields "timestamp" = none → elemRecord now (JVal.obj fields) = some r →
      r.timestamp = JVal.str now)
    ∧ elemRecord "2025-06-01T00:00:00"
        (JVal.obj [("text", JVal.str "t"), ("timestamp", JVal.null)]) =
      some ⟨"t", JVal.str "unknown", JVal.null,
        [("text", JVal.str "t"), ("timestamp", JVal.null)]⟩
    ∧ (∀ (rowLists : List (List Record)) (r : Record) (l : List Record),
      r ∈ aggregate_prompts rowLists →
      pySortPromptsDesc (aggregate_prompts rowLists) = Except.ok l → r ∈ l)
    ∧ (∀ l : List Record, (∀ r ∈ l, r.timestamp.isStr = true) →
      pySortPromptsDesc l = Except.ok (sortPromptsDesc l))
    ∧ (∀ r1 r2 : Record, r1.timestamp = JVal.null → r2.timestamp.isStr = true →
      pySortPromptsDesc [r1, r2] = Except.error "TypeError") := by
  refine ⟨?_, ?_, rfl, ?_, pySortPromptsDesc_of_strings, ?_⟩
  · intro now fields v r hv hr
    obtain ⟨s, _, _, heq⟩ := elemRecord_obj_eq now fields r hr
    subst heq
    show (jget fields "timestamp").getD (JVal.str now) = v
    rw [hv]
    rfl
  · intro now fields r hv hr
    obtain ⟨s, _, _, heq⟩ := elemRecord_obj_eq now fields r hr
    subst heq
    show (jget fields "timestamp").getD (JVal.str now) = JVal.str now
    rw [hv]
    rfl
  · intro rowLists r l hm hs
    exact (pySortPromptsDesc_perm (aggregate_prompts rowLists) l hs).mem_iff.mpr hm
  · intro r1 r2 h1 h2
    have hcmp : pyLtTs (tsKey r1) (tsKey r2) = Except.error "TypeError" := by
      show pyLtTs r1.timestamp r2.timestamp = _
      rw [h1, timestamp_eq_str r2 h2]
      rfl
    show insertTsE r1 [r2] = Except.error "TypeError"
    simp only [insertTsE]
    rw [hcmp]

/-- C10 witness: a present null timestamp is copied unchanged. -/
theorem timestamp_pass_through_witness :
    (⟨"t", JVal.str "unknown", JVal.null,
      [("text", JVal.str "t"), ("timestamp", JVal.null)]⟩ : Record).timestamp =
      JVal.null :=
  timestamp_pass_through.1 "2025-06-01T00:00:00"
    [("text", JVal.str "t"), ("timestamp", JVal.null)] JVal.null
    ⟨"t", JVal.str "unknown", JVal.null,
      [("text", JVal.str "t"), ("timestamp", JVal.null)]⟩ rfl rfl

/-! Helper lemmas about storage discovery. -/

/-- Two paths are separated when neither is an ancestor-or-self of the
other in the component model: neither component list is an initial
segment of the other. -/
def sepP (a b : FsPath) : Prop :=
  ¬ (a <+: b) ∧ ¬ (b <+: a)

instance sepP_decidable (a b : FsPath) : Decidable (sepP a b) :=
  inferInstanceAs (Decidable (¬ (a <+: b) ∧ ¬ (b <+: a)))

/-- The base slash common combinations relative to home. -/
def storage_rel_combos (system : String) : List FsPath :=
  (base_rel_paths system).flatMap fun b => common_paths.map fun c => b ++ c

/-- Appending a common path on the right cancels on the left. -/
theorem pref_of_append_pref (l : FsPath) :
    ∀ a b : FsPath, (l ++ a <+: l ++ b) → a <+: b := by
  induction l with
  | nil => intro a b h; exact h
  | cons x l ih =>
    intro a b h
    rw [List.cons_append, List.cons_append] at h
    exact ih a b (List.cons_prefix_cons.mp h).2

/-- Separation is preserved when the same home is prepended to both
paths. -/
theorem sepP_append_left (home : FsPath) (a b : FsPath) (h : sepP a b) :
    sepP (home ++ a) (home ++ b) :=
  ⟨fun hp => h.1 (pref_of_append_pref home a b hp),
   fun hp => h.2 (pref_of_append_pref home b a hp)⟩

/-- The enumerated combinations are the home-relative combinations with
home prepended. -/
theorem storage_combos_eq (system : String) (home : FsPath) :
    storage_combos system home = (storage_rel_combos system).map fun s => home ++ s := by
  unfold storage_combos base_paths storage_rel_combos
  rw [List.flatMap_map, List.map_flatMap]
  congr 1
  funext b
  rw [List.map_map]
  simp only [Function.comp_def]
  congr 1
  funext c
  exact List.append_assoc home b c

/-- For every operating system the twelve (or four) home-relative
combinations are pairwise separated: within each base set no base is an
initial segment of another, and no common sub-path is an initial segment
of another. -/
theorem storage_rel_combos_sep (system : String) :
    List.Pairwise sepP (storage_rel_combos system) := by
  unfold storage_rel_combos base_rel_paths
  split_ifs <;> decide

/-- Without an override, the candidate list is the filtered combination
list, and its entries are pairwise separated. -/
theorem storage_paths_sep (pathExists : FsPath → Bool) (system : String) (home : FsPath) :
    List.Pairwise sepP (get_cursor_storage_paths pathExists system home none) := by
  unfold get_cursor_storage_paths
  rw [List.append_nil]
  apply List.Pairwise.sublist (List.filter_sublist _)
  rw [storage_combos_eq]
  exact List.Pairwise.map _ (fun a b h => sepP_append_left home a b h)
    (storage_rel_combos_sep system)

/-- Separated paths are distinct. -/
theorem sepP_ne (a b : FsPath) (h : sepP a b) : a ≠ b := by
  intro he
  exact h.1 (he ▸ List.prefix_refl a)

/-- C3 (amended): with no override supplied, both discovery stages are
duplicate free: the candidate list enumerates pairwise separated existing
locations, and, provided each directory walk lists distinct files lying
strictly below its directory (as os.walk does), the store list collects
files of separated directories and so never repeats a path.  (With an
override that coincides with an existing default location, both lists
repeat it; see the counterexample.) -/
theorem discovery_nodup_amended (fs : FSModel) (system : String) (home : FsPath)
    (hw1 : ∀ d, (fs.walk d).Nodup)
    (hw2 : ∀ d f, f ∈ fs.walk d → d <+: f ∧ d ≠ f) :
    (get_cursor_storage_paths fs.pathExists system home none).Nodup
    ∧ (find_cursor_dbs fs system home none).Nodup := by
  have hsep := storage_paths_sep fs.pathExists system home
  constructor
  · exact hsep.imp fun h => sepP_ne _ _ h
  · unfold find_cursor_dbs
    rw [List.nodup_flatMap]
    constructor
    · intro bp _
      by_cases hf : fs.isFile bp
      · rw [if_pos hf]
        exact List.nodup_singleton bp
      · rw [if_neg hf]
        exact List.Nodup.filter _ (hw1 bp)
    · refine hsep.imp ?_
      intro a b hab
      intro x hxa hxb
      have hxa2 : x ∈ (if fs.isFile a then [a]
          else (fs.walk a).filter fun f => endsWithDbExt f && fs.sqliteOk f) := hxa
      have hxb2 : x ∈ (if fs.isFile b then [b]
          else (fs.walk b).filter fun f => endsWithDbExt f && fs.sqliteOk f) := hxb
      clear hxa hxb
      by_cases hfa : fs.isFile a
      · rw [if_pos hfa] at hxa2
        have hxa' : x = a := List.mem_singleton.mp hxa2
        by_cases hfb : fs.isFile b
        · rw [if_pos hfb] at hxb2
          have hxb' : x = b := List.mem_singleton.mp hxb2
          exact sepP_ne a b hab (hxa' ▸ hxb')
        · rw [if_neg hfb] at hxb2
          have hxw : x ∈ fs.walk b := (List.mem_filter.mp hxb2).1
          exact hab.2 (hxa' ▸ (hw2 b x hxw).1)
      · rw [if_neg hfa] at hxa2
        have hxwa : x ∈ fs.walk a := (List.mem_filter.mp hxa2).1
        have hpa : a <+: x := (hw2 a x hxwa).1
        by_cases hfb : fs.isFile b
        · rw [if_pos hfb] at hxb2
          have hxb' : x = b := List.mem_singleton.mp hxb2
          exact hab.1 (hxb' ▸ hpa)
        · rw [if_neg hfb] at hxb2
          have hxwb : x ∈ fs.walk b := (List.mem_filter.mp hxb2).1
          have hpb : b <+: x := (hw2 b x hxwb).1
          rcases List.prefix_or_prefix_of_prefix hpa hpb with h | h
          · exact hab.1 h
          · exact hab.2 h

/-- C3 witness: a filesystem in which every location exists, nothing is a
direct file and every walk is empty, on Linux with a one-component
home. -/
theorem discovery_nodup_witness :
    (get_cursor_storage_paths (fun _ => true) "Linux" ["h"] none).Nodup
    ∧ (find_cursor_dbs ⟨fun _ => true, fun _ => false, fun _ => [], fun _ => true⟩
        "Linux" ["h"] none).Nodup :=
  discovery_nodup_amended ⟨fun _ => true, fun _ => false, fun _ => [], fun _ => true⟩
    "Linux" ["h"] (fun _ => List.Pairwise.nil) (fun _ f hf => absurd hf (List.not_mem_nil f))

/-- The override of the counterexample: the Linux workspaceStorage
default location itself. -/
def cexCustomPath : FsPath :=
  ["h", ".config", "Cursor", "User", "workspaceStorage"]

/-- The filesystem of the counterexample: everything exists, nothing is a
direct file, and walking the duplicated directory finds one store
file. -/
def cexFS : FSModel :=
  ⟨fun _ => true, fun _ => false,
   fun d => if d = cexCustomPath then [cexCustomPath ++ ["state.vscdb"]] else [],
   fun _ => true⟩

/-- C3 counterexample: when the CURSOR_STORAGE_PATH override names an
existing platform-default location, that location appears twice in the
candidate list (lines 62 to 73 append it once per loop hit and once for
the override, with no duplicate check), and the store file below it is
reported twice by find_cursor_dbs. -/
theorem discovery_duplicate_cex :
    ¬ (get_cursor_storage_paths cexFS.pathExists "Linux" ["h"] (some cexCustomPath)).Nodup
    ∧ ¬ (find_cursor_dbs cexFS "Linux" ["h"] (some cexCustomPath)).Nodup := by
  decide
